import Mathlib

/-!
Verification of the WebSocket-to-TCP proxy in src/go/main.go.

The Go program is embedded shallowly:

* `hexToByte`, `validateUUID`, `initUuid` embed the identifier handling
  (main.go lines 24-30, 191-204).  Go strings are modelled as `List Char`
  (the strings involved are ASCII, one `Char` per byte); a Go slice-bounds
  panic is modelled as `none`.
* `ipString` embeds `net.IP.String` on the 4- and 16-byte slices the proxy
  builds (dotted-decimal IPv4, RFC 5952 IPv6 with `::` compression of the
  first longest run of at least two zero groups, and the IPv4-mapped case).
* `decodeAddress` embeds the `atyp` switch of `handleProxyRequest`
  (main.go 104-131), `parseHeader` its pure prefix (82-131), and
  `handleProxyRequest` its I/O phase (133-157) as a trace of events
  parameterised by which external calls succeed.
* `handleWebSocketLoop` and `proxyWebSocketToTCP` embed the message loop of
  `handleWebSocket` (63-79) and the WebSocket-to-TCP pump (160-173).

Message bytes are `Nat`s (values below 256 in reality); where a value could
exceed a byte/uint16 the embedding reduces modulo 256 exactly where Go's
types do.
-/

set_option maxRecDepth 20000

namespace Proxy

/-- A hexadecimal digit as accepted by Go fmt's x scan verb (either case). -/
def isHexDigit (c : Char) : Bool :=
  (('0' ≤ c && c ≤ '9') || ('a' ≤ c && c ≤ 'f')) || ('A' ≤ c && c ≤ 'F')

/-- Numeric value of a hexadecimal digit character. -/
def hexVal (c : Char) : Nat :=
  if '0' ≤ c && c ≤ '9' then c.toNat - 48
  else if 'a' ≤ c && c ≤ 'f' then c.toNat - 87
  else c.toNat - 55

/-- Embedding of `hexToByte` (main.go 200-204).  `fmt.Sscanf(hex, "%02x", &b)`
skips leading whitespace, then reads at most two characters and converts the
longest prefix of hexadecimal digits among them; when no digit is found the
scan errors out (the error is discarded) and `b` keeps its zero value. -/
def hexToByte (s : List Char) : Nat :=
  let t := (s.dropWhile (fun c => c.isWhitespace)).take 2
  let ds := t.takeWhile isHexDigit
  if ds.isEmpty then 0 else ds.foldl (fun a c => a * 16 + hexVal c) 0

/-- Go string slicing `s[a:b]`: defined when `a ≤ b ≤ len s`, a runtime panic
(`none`) otherwise. -/
def goSlice (s : List Char) (a b : Nat) : Option (List Char) :=
  if a ≤ b ∧ b ≤ s.length then some ((s.drop a).take (b - a)) else none

/-- The loop of `validateUUID` (main.go 192-197), at loop index `i` with the
remaining candidate bytes; `none` models the slice-bounds panic. -/
def validateUUIDAux (uuid : List Char) : List Nat → Nat → Option Bool
  | [], _ => some true
  | v :: rest, i =>
    match goSlice uuid (i * 2) (i * 2 + 2) with
    | none => none
    | some seg =>
      if v = hexToByte seg then validateUUIDAux uuid rest (i + 1) else some false

/-- Embedding of `validateUUID` (main.go 191-198): compare each candidate byte
with the byte scanned from the corresponding two-character substring of the
configured string.  `none` models the index-out-of-range panic reached when
`uuid` is shorter than twice the candidate length. -/
def validateUUID (uuid : List Char) (id : List Nat) : Option Bool :=
  validateUUIDAux uuid id 0

/-- Embedding of `init` (main.go 24-30): take the UUID environment value
(Go's `os.Getenv` yields the empty string when the variable is absent),
default to "123456" when empty, then strip every hyphen. -/
def initUuid (env : String) : List Char :=
  ((if env = "" then "123456" else env).toList).filter (fun c => c ≠ '-')

/-- The two-character substring of the configured string that `validateUUID`
scans for candidate byte `k`: `uuid[k*2 : k*2+2]`. -/
def pairAt (uuid : List Char) (k : Nat) : List Char :=
  (uuid.drop (k * 2)).take 2

/-- The byte values `validateUUID` expects at positions `k, k+1, ...`
(`n` of them). -/
def expectedFrom (uuid : List Char) (k : Nat) : Nat → List Nat
  | 0 => []
  | n + 1 => hexToByte (pairAt uuid k) :: expectedFrom uuid (k + 1) n

/-- The 16 bytes `validateUUID` effectively accepts. -/
def expectedBytes (uuid : List Char) : List Nat :=
  expectedFrom uuid 0 16

/-- Two characters forming a well-formed hexadecimal byte. -/
def isValidHexPair (s : List Char) : Bool :=
  s.length = 2 && s.all isHexDigit

/-- Lowercase hexadecimal digit character, as in net's hexDigit table. -/
def hexDigitChar (n : Nat) : Char :=
  if n < 10 then Char.ofNat (48 + n) else Char.ofNat (87 + n)

/-- net.appendHex: lowercase hexadecimal of a 16-bit group without leading
zeros ("0" for zero). -/
def hexGroupChars (g : Nat) : List Char :=
  if g = 0 then ['0']
  else if g / 4096 % 16 ≠ 0 then
    [hexDigitChar (g / 4096 % 16), hexDigitChar (g / 256 % 16),
     hexDigitChar (g / 16 % 16), hexDigitChar (g % 16)]
  else if g / 256 % 16 ≠ 0 then
    [hexDigitChar (g / 256 % 16), hexDigitChar (g / 16 % 16), hexDigitChar (g % 16)]
  else if g / 16 % 16 ≠ 0 then [hexDigitChar (g / 16 % 16), hexDigitChar (g % 16)]
  else [hexDigitChar (g % 16)]

/-- The 16-bit groups of a 16-byte IPv6 address (big-endian pairs). -/
def toGroups : List Nat → List Nat
  | b0 :: b1 :: rest => (b0 * 256 + b1) :: toGroups rest
  | _ => []

/-- Length of the run of zero groups starting at the head. -/
def zeroRunFrom : List Nat → Nat
  | [] => 0
  | g :: rest => if g = 0 then zeroRunFrom rest + 1 else 0

/-- First longest run of zero groups, as (start index, length); length 0 when
no group is zero.  Mirrors the scan in net.IP.String (a later run replaces the
current best only when strictly longer). -/
def bestZeroRun : List Nat → Nat × Nat
  | [] => (0, 0)
  | g :: rest =>
    let here := zeroRunFrom (g :: rest)
    let p := bestZeroRun rest
    if here ≠ 0 ∧ p.2 ≤ here then (0, here) else (p.1 + 1, p.2)

/-- Join character groups with ':' separators. -/
def joinColon : List (List Char) → List Char
  | [] => []
  | [x] => x
  | x :: xs => x ++ ':' :: joinColon xs

/-- The IPv6 branch of net.IP.String: hexadecimal groups joined by ':', with
the first longest run of two or more zero groups compressed to "::". -/
def fmtIPv6Groups (gs : List Nat) : List Char :=
  let r := bestZeroRun gs
  if r.2 ≤ 1 then joinColon (gs.map hexGroupChars)
  else
    joinColon ((gs.take r.1).map hexGroupChars) ++
      ':' :: ':' :: joinColon ((gs.drop (r.1 + r.2)).map hexGroupChars)

/-- Decimal digits of a natural number (net's uitoa). -/
def natDec (n : Nat) : List Char :=
  Nat.toDigits 10 n

/-- Dotted-decimal IPv4 form, net.IP.String's To4 path. -/
def ipv4String (a b c d : Nat) : List Char :=
  natDec a ++ '.' :: natDec b ++ '.' :: natDec c ++ '.' :: natDec d

/-- Two lowercase hexadecimal digits of one byte (net's hexString helper). -/
def hexByteChars (b : Nat) : List Char :=
  [hexDigitChar (b / 16 % 16), hexDigitChar (b % 16)]

/-- Embedding of `net.IP.String` on the byte slices the proxy builds: empty →
"<nil>"; length 4 or an IPv4-mapped length-16 slice → dotted decimal; other
length-16 slices → RFC 5952 IPv6 text; anything else → '?' and hex bytes. -/
def ipString (bs : List Nat) : List Char :=
  if bs.length = 0 then ['<', 'n', 'i', 'l', '>']
  else if bs.length = 4 then
    ipv4String (bs.getD 0 0) (bs.getD 1 0) (bs.getD 2 0) (bs.getD 3 0)
  else if bs.length = 16 ∧ ((bs.take 10).all (fun b => b = 0)) ∧
      bs.getD 10 0 = 255 ∧ bs.getD 11 0 = 255 then
    ipv4String (bs.getD 12 0) (bs.getD 13 0) (bs.getD 14 0) (bs.getD 15 0)
  else if bs.length = 16 then fmtIPv6Groups (toGroups bs)
  else '?' :: (bs.map hexByteChars).flatten

/-- `net.IP(...).String()` as a Lean `String`. -/
def ipStr (bs : List Nat) : String :=
  ⟨ipString bs⟩

/-- Errors returned by `handleProxyRequest`; the constructors mirror the
source's fmt.Errorf messages.  `msgTooShort` ("message too short", raised by
the two header length gates) is the spec's FrameTooShort, `invalidUUID` its
AuthenticationFailed, `unknownAddressType` its UnknownAddressType; the
`msgTooShortIPv4/DomainLen/Domain/IPv6` constructors are the per-address-type
shortness errors, and the last three are the ack-write, dial and
initial-payload-write failures. -/
inductive Err
  | msgTooShort
  | invalidUUID
  | msgTooShortIPv4
  | msgTooShortDomainLen
  | msgTooShortDomain
  | msgTooShortIPv6
  | unknownAddressType
  | writeAckFailed
  | dialFailed
  | tcpWriteInitialFailed
deriving DecidableEq

/-- `binary.BigEndian.Uint16` on two bytes. -/
def bigEndianUint16 (b0 b1 : Nat) : Nat :=
  b0 % 256 * 256 + b1 % 256

/-- Embedding of the `atyp` switch of `handleProxyRequest` (main.go 104-131),
the spec's AddressDecoder: `i` is the cursor at the first byte after the
address-type tag, `atyp` the tag itself.  Yields the host string and the
cursor past the address.  In the domain case the length byte `message[i]`
(Go's `domainLen`) is read first and the cursor advances past it. -/
def decodeAddress (message : List Nat) (i : Nat) (atyp : Nat) :
    Except Err (String × Nat) :=
  if atyp = 1 then
    if message.length < i + 4 then .error .msgTooShortIPv4
    else .ok (ipStr ((message.drop i).take 4), i + 4)
  else if atyp = 2 then
    if message.length < i + 1 then .error .msgTooShortDomainLen
    else if message.length < (i + 1) + message.getD i 0 then
      .error .msgTooShortDomain
    else
      .ok (⟨((message.drop (i + 1)).take (message.getD i 0)).map Char.ofNat⟩,
        (i + 1) + message.getD i 0)
  else if atyp = 3 then
    if message.length < i + 16 then .error .msgTooShortIPv6
    else .ok (ipStr ((message.drop i).take 16), i + 16)
  else .error .unknownAddressType

deriving instance DecidableEq for Except

/-- Result of a successful header parse: the echoed version byte, the spec's
TargetDescriptor (host, port, atyp) and the offset where tunneled payload
begins. -/
structure Parsed where
  version : Nat
  host : String
  port : Nat
  atyp : Nat
  payloadIdx : Nat
deriving DecidableEq

/-- The pure prefix of `handleProxyRequest` (main.go 82-131): length gate,
version and identifier reads, authentication, addon-length cursor arithmetic
(`i := int(message[17]) + 19`), second length gate, big-endian port, address
type and address decode.  No I/O.  `none` models the panic inside
`validateUUID` when the configured string is too short. -/
def parseHeader (uuid : List Char) (message : List Nat) :
    Option (Except Err Parsed) :=
  if message.length < 18 then some (.error .msgTooShort)
  else
    match validateUUID uuid ((message.drop 1).take 16) with
    | none => none
    | some false => some (.error .invalidUUID)
    | some true =>
      let i := message.getD 17 0 + 19
      if message.length < i + 3 then some (.error .msgTooShort)
      else
        match decodeAddress message (i + 3) (message.getD (i + 2) 0) with
        | .error e => some (.error e)
        | .ok (host, j) =>
          some (.ok ⟨message.getD 0 0, host,
            bigEndianUint16 (message.getD i 0) (message.getD (i + 1) 0),
            message.getD (i + 2) 0, j⟩)

/-- Which of the session's external calls succeed. -/
structure World where
  ackOK : Bool
  dialOK : Bool
  tcpOK : Bool

/-- Observable I/O actions of one `handleProxyRequest` call, in order. -/
inductive Event
  | wsWrite (frameType : Nat) (payload : List Nat)
  | dial (host : String) (port : Nat)
  | tcpWrite (payload : List Nat)
  | startRelay
deriving DecidableEq

/-- How one `handleProxyRequest` call ends: blocked on the relay's error
channel, returning an error, or panicking. -/
inductive Outcome
  | relayed
  | failed (e : Err)
  | panicked
deriving DecidableEq

/-- The I/O phase of `handleProxyRequest` (main.go 133-157) on top of
`parseHeader`: write the two-byte ack `[version, 0]` as a binary (type 2)
WebSocket message, dial `host:port`, write the bytes after the address to the
TCP side when there are any (`len(message) > i`), then start the two relay
goroutines and block on the error channel (`Outcome.relayed`).  The trace
lists the attempted calls in order; `w` fixes which of them succeed. -/
def handleProxyRequest (uuid : List Char) (message : List Nat) (w : World) :
    List Event × Outcome :=
  match parseHeader uuid message with
  | none => ([], .panicked)
  | some (.error e) => ([], .failed e)
  | some (.ok p) =>
    if w.ackOK = false then
      ([Event.wsWrite 2 [p.version, 0]], .failed .writeAckFailed)
    else if w.dialOK = false then
      ([Event.wsWrite 2 [p.version, 0], Event.dial p.host p.port],
        .failed .dialFailed)
    else if p.payloadIdx < message.length then
      if w.tcpOK = false then
        ([Event.wsWrite 2 [p.version, 0], Event.dial p.host p.port,
          Event.tcpWrite (message.drop p.payloadIdx)],
          .failed .tcpWriteInitialFailed)
      else
        ([Event.wsWrite 2 [p.version, 0], Event.dial p.host p.port,
          Event.tcpWrite (message.drop p.payloadIdx), Event.startRelay],
          .relayed)
    else
      ([Event.wsWrite 2 [p.version, 0], Event.dial p.host p.port,
        Event.startRelay], .relayed)

/-- The message loop of `handleWebSocket` (main.go 63-79): read until a read
error (`none`); a message whose type is not 2 (gorilla's BinaryMessage) is
logged and skipped; a binary message is handed to `handleProxyRequest`, which
always ends the loop (its relay phase only returns a non-nil error, and its
panic aborts the handler).  Returns the payloads handed to
`handleProxyRequest`. -/
def handleWebSocketLoop : List (Option (Nat × List Nat)) → List (List Nat)
  | [] => []
  | none :: _ => []
  | some (t, message) :: rest =>
    if t ≠ 2 then handleWebSocketLoop rest else [message]

/-- The WebSocket-to-TCP pump (main.go 160-173): each successfully read
message's payload is written verbatim to the TCP side; the frame type is
discarded (`_, message, err := wsConn.ReadMessage()`).  The argument is the
sequence of successful reads (type, payload) before the first read error;
the result is the sequence of TCP writes. -/
def proxyWebSocketToTCP : List (Nat × List Nat) → List (List Nat)
  | [] => []
  | (_, message) :: rest => message :: proxyWebSocketToTCP rest

/-- Modelled from the spec: the client-side encoding of a port value as two
big-endian bytes (the inverse the spec's round-trip property refers to; the
repository only contains the decoding side, main.go 99). -/
def portToBytesBE (p : Nat) : List Nat :=
  [p / 256 % 256, p % 256]

/-- A 32-character all-zero configured identifier, for concrete instances. -/
def uuid0 : List Char :=
  "00000000000000000000000000000000".toList

/-- A valid handshake frame under `uuid0`: version 0, 16 zero identifier
bytes, addon length 0, command 0, port 443, atyp 1, address 1.2.3.4, no
trailing payload. -/
def demoMsg : List Nat :=
  [0, 0, 0, 0, 0, 0, 0, 0, 0, 0, 0, 0, 0, 0, 0, 0, 0, 0, 0, 1, 187, 1, 1, 2, 3, 4]

/-- `demoMsg` with two trailing payload bytes. -/
def demoMsgPay : List Nat :=
  demoMsg ++ [9, 8]

/-- An 18-byte frame (addon length 5) that passes the first gate and the
authentication but is shorter than 22 + 5. -/
def demoMsgShort : List Nat :=
  [0, 0, 0, 0, 0, 0, 0, 0, 0, 0, 0, 0, 0, 0, 0, 0, 0, 5]

end Proxy

namespace Proxy

theorem getD_eq_getElem_of_lt (l : List Nat) (n : Nat) (h : n < l.length) :
    l.getD n 0 = l[n] := by
  simp [List.getD_eq_getElem?_getD, List.getElem?_eq_getElem h]

theorem drop_eq_getD_cons (m : List Nat) (i : Nat) (h : i < m.length) :
    m.drop i = m.getD i 0 :: m.drop (i + 1) := by
  rw [List.drop_eq_getElem_cons h, getD_eq_getElem_of_lt m i h]

/-- `validateUUID`'s loop, fully characterised when the configured string is
long enough for the remaining indices: it neither panics nor stops early, and
accepts exactly the expected scanned bytes. -/
theorem validateUUIDAux_eq (uuid : List Char) (ids : List Nat) (k : Nat)
    (h : 2 * k + 2 * ids.length ≤ uuid.length) :
    validateUUIDAux uuid ids k =
      some (decide (ids = expectedFrom uuid k ids.length)) := by
  induction ids generalizing k with
  | nil => simp [validateUUIDAux, expectedFrom]
  | cons v rest ih =>
    have hb : k * 2 + 2 ≤ uuid.length := by
      simp only [List.length_cons] at h
      omega
    have h2 : k * 2 + 2 - k * 2 = 2 := by omega
    have hgs : goSlice uuid (k * 2) (k * 2 + 2) = some (pairAt uuid k) := by
      unfold goSlice pairAt
      rw [if_pos ⟨Nat.le_add_right _ _, hb⟩, h2]
    have hlen : (v :: rest).length = rest.length + 1 := List.length_cons v rest
    rw [hlen]
    unfold validateUUIDAux
    rw [hgs]
    show (if v = hexToByte (pairAt uuid k) then validateUUIDAux uuid rest (k + 1)
      else some false) = some (decide (v :: rest = expectedFrom uuid k (rest.length + 1)))
    have hE : expectedFrom uuid k (rest.length + 1) =
        hexToByte (pairAt uuid k) :: expectedFrom uuid (k + 1) rest.length := rfl
    by_cases hv : v = hexToByte (pairAt uuid k)
    · rw [if_pos hv, ih (k + 1) (by simp only [List.length_cons] at h; omega)]
      congr 1
      refine decide_eq_decide.mpr ?_
      rw [hE, hv]
      simp
    · rw [if_neg hv, hE]
      have hne : ¬(v :: rest =
          hexToByte (pairAt uuid k) :: expectedFrom uuid (k + 1) rest.length) := by
        simp [hv]
      rw [decide_eq_false hne]

/-- C4: under a well-formed 32-character hexadecimal configuration,
`validateUUID` returns a match exactly for the candidate equal to the
configured 16-byte identifier, and rejects (returns `some false`, without
error) every candidate differing in at least one byte position. -/
theorem auth_matches_iff (uuid : List Char) (id : List Nat)
    (hlen : uuid.length = 32) (hhex : ∀ c ∈ uuid, isHexDigit c)
    (hid : id.length = 16) :
    (validateUUID uuid id = some true ↔ id = expectedBytes uuid) ∧
    (id ≠ expectedBytes uuid → validateUUID uuid id = some false) := by
  have h := validateUUIDAux_eq uuid id 0 (by omega)
  rw [hid] at h
  unfold validateUUID expectedBytes
  rw [h]
  by_cases hc : id = expectedFrom uuid 0 16 <;> simp [hc]

theorem auth_matches_iff_witness :
    validateUUID uuid0 (List.replicate 16 0) = some true :=
  (auth_matches_iff uuid0 (List.replicate 16 0) (by decide) (by decide)
    (by decide)).1.mpr (by decide)

/-- C2 counterexample: with the configuration absent (empty environment
value), the derived identifier string is "123456" — 6 bytes, not a 16-byte
(32 hex character) value — and `validateUUID` panics (index out of range,
modelled as `none`) on a 16-byte candidate whose first three bytes match,
instead of comparing all 16 bytes without error. -/
theorem default_uuid_panics :
    validateUUID (initUuid "") ([18, 52, 86] ++ List.replicate 13 0) = none ∧
    (initUuid "").length = 6 := by decide

/-- C2 (amended): the process keeps the hyphen-stripped configuration string
itself rather than a fixed 16-byte value; whenever that string has at least
32 bytes, `validateUUID` compares all 16 candidate bytes against it without
error (returning some verdict, never panicking) — but not for every possible
configuration value: shorter strings, including the default, can panic. -/
theorem auth_no_error_of_long_uuid (s : String) (id : List Nat)
    (h : 32 ≤ (initUuid s).length) (hid : id.length = 16) :
    ∃ b, validateUUID (initUuid s) id = some b := by
  have h := validateUUIDAux_eq (initUuid s) id 0 (by omega)
  exact ⟨_, h⟩

theorem auth_no_error_of_long_uuid_witness :
    ∃ b, validateUUID (initUuid "0123456789abcdef0123456789abcdef")
      (List.replicate 16 7) = some b :=
  auth_no_error_of_long_uuid "0123456789abcdef0123456789abcdef"
    (List.replicate 16 7) (by decide) (by decide)

theorem hexToByte_of_first_not_hex (c d : Char) (hw : c.isWhitespace = false)
    (hc : isHexDigit c = false) : hexToByte [c, d] = 0 := by
  unfold hexToByte
  simp [List.dropWhile, hw, List.takeWhile, hc]

theorem expectedFrom_getD (uuid : List Char) (n : Nat) :
    ∀ (j k : Nat), k < n →
      (expectedFrom uuid j n).getD k 1 = hexToByte (pairAt uuid (j + k)) := by
  induction n with
  | zero =>
    intro j k hk
    omega
  | succ n ih =>
    intro j k hk
    have hE : expectedFrom uuid j (n + 1) =
        hexToByte (pairAt uuid j) :: expectedFrom uuid (j + 1) n := rfl
    cases k with
    | zero => rw [hE, List.getD_cons_zero, Nat.add_zero]
    | succ k =>
      rw [hE, List.getD_cons_succ, ih (j + 1) k (by omega)]
      have hjk : j + 1 + k = j + (k + 1) := by omega
      rw [hjk]

/-- C10 (amended): `hexToByte` converts the longest hexadecimal-digit prefix
of (at most) two characters, so it returns 0x00 for a two-character input
whose first character is not a hexadecimal digit (and not scan-skipped
whitespace), but for a pair whose first character is a hex digit and whose
second is not — also not valid hexadecimal — it returns the first digit's
value, not 0x00.  Consequently, when the configured 32-character string has a
pair starting with a non-hex character at position `k`, any accepted candidate
carries 0x00 at byte position `k`, so the effective expected identifier
differs from the configured string's literal hex value. -/
theorem hexToByte_non_hex_behavior (c d : Char) :
    (c.isWhitespace = false → isHexDigit c = false → hexToByte [c, d] = 0) ∧
    (c.isWhitespace = false → isHexDigit c = true → isHexDigit d = false →
      hexToByte [c, d] = hexVal c) ∧
    (∀ (uuid : List Char) (id : List Nat) (k : Nat), uuid.length = 32 →
      id.length = 16 → k < 16 → pairAt uuid k = [c, d] →
      c.isWhitespace = false → isHexDigit c = false →
      validateUUID uuid id = some true → id.getD k 1 = 0) := by
  refine ⟨hexToByte_of_first_not_hex c d, ?_, ?_⟩
  · intro hw hc hd
    unfold hexToByte
    simp [List.dropWhile, hw, List.takeWhile, hc, hd]
  · intro uuid id k hlen hid hk hpair hw hc hacc
    have h := validateUUIDAux_eq uuid id 0 (by omega)
    rw [hid] at h
    unfold validateUUID at hacc
    rw [h] at hacc
    have heq : id = expectedFrom uuid 0 16 := by
      have := Option.some.inj hacc
      exact of_decide_eq_true this
    rw [heq, expectedFrom_getD uuid 16 0 k hk]
    have : pairAt uuid (0 + k) = [c, d] := by
      rw [Nat.zero_add]
      exact hpair
    rw [this]
    exact hexToByte_of_first_not_hex c d hw hc

theorem hexToByte_non_hex_behavior_witness :
    hexToByte ['z', '1'] = 0 ∧ hexToByte ['1', 'z'] = hexVal '1' ∧
      (List.replicate 16 0).getD 0 1 = 0 := by
  refine ⟨(hexToByte_non_hex_behavior 'z' '1').1 (by decide) (by decide),
    (hexToByte_non_hex_behavior '1' 'z').2.1 (by decide) (by decide) (by decide),
    (hexToByte_non_hex_behavior 'z' 'z').2.2
      ("zz000000000000000000000000000000".toList) (List.replicate 16 0) 0
      (by decide) (by decide) (by decide) (by decide) (by decide) (by decide)
      (by decide)⟩

/-- C10 counterexample: "1z" is not a valid hexadecimal pair, yet the
conversion returns 0x01, not 0x00 as claimed. -/
theorem hexToByte_counterexample :
    isValidHexPair ['1', 'z'] = false ∧ hexToByte ['1', 'z'] = 1 := by decide

theorem slice_agree (m' m : List Nat) (a k : Nat) (hl : m'.length = m.length)
    (hag : ∀ j, a ≤ j → j < a + k → m'.getD j 0 = m.getD j 0) :
    (m'.drop a).take k = (m.drop a).take k := by
  revert hag
  induction k generalizing a with
  | zero =>
    intro hag
    simp
  | succ k ih =>
    intro hag
    by_cases ha : a < m.length
    · rw [drop_eq_getD_cons m a ha, drop_eq_getD_cons m' a (by omega),
        List.take_succ_cons, List.take_succ_cons,
        hag a (Nat.le_refl a) (by omega),
        ih (a + 1) (fun j h1 h2 => hag j (by omega) (by omega))]
    · rw [List.drop_eq_nil_of_le (by omega), List.drop_eq_nil_of_le (by omega)]

theorem take4_eq (m : List Nat) (i : Nat) (h : i + 4 ≤ m.length) :
    (m.drop i).take 4 =
      [m.getD i 0, m.getD (i + 1) 0, m.getD (i + 2) 0, m.getD (i + 3) 0] := by
  rw [drop_eq_getD_cons m i (by omega), drop_eq_getD_cons m (i + 1) (by omega),
    drop_eq_getD_cons m (i + 2) (by omega), drop_eq_getD_cons m (i + 3) (by omega)]
  rfl

theorem ipStr_four (a b c d : Nat) : ipStr [a, b, c, d] = ⟨ipv4String a b c d⟩ :=
  rfl

theorem decodeAddress_ne_msgTooShort (m : List Nat) (i a : Nat) :
    decodeAddress m i a ≠ .error .msgTooShort := by
  unfold decodeAddress
  split_ifs <;> simp

theorem decodeAddress_agree (m' m : List Nat) (i a : Nat)
    (hl : m'.length = m.length)
    (hag : ∀ j, i ≤ j → m'.getD j 0 = m.getD j 0) :
    decodeAddress m' i a = decodeAddress m i a := by
  have hi : m'.getD i 0 = m.getD i 0 := hag i (Nat.le_refl i)
  have hs4 : (m'.drop i).take 4 = (m.drop i).take 4 :=
    slice_agree m' m i 4 hl (fun j h1 _ => hag j h1)
  have hs16 : (m'.drop i).take 16 = (m.drop i).take 16 :=
    slice_agree m' m i 16 hl (fun j h1 _ => hag j h1)
  have hsD : (m'.drop (i + 1)).take (m.getD i 0) =
      (m.drop (i + 1)).take (m.getD i 0) :=
    slice_agree m' m (i + 1) (m.getD i 0) hl (fun j h1 _ => hag j (by omega))
  unfold decodeAddress
  rw [hl, hi, hs4, hs16, hsD]

/-- C6: the address decoder: tag 1 requires at least 4 remaining bytes,
yields the dotted-decimal IPv4 string of those 4 bytes and advances the
cursor by 4; tag 2 requires a length byte L and then L more bytes, yields
those L bytes as the hostname string and advances by 1 + L; tag 3 requires
at least 16 remaining bytes, yields the 16-byte address's string form and
advances by 16; any tag outside {1,2,3} fails with UnknownAddressType; and
insufficient remaining bytes fail in every case. -/
theorem decodeAddress_cases (message : List Nat) (i atyp : Nat) :
    (atyp = 1 →
      (message.length < i + 4 →
        decodeAddress message i atyp = .error .msgTooShortIPv4) ∧
      (i + 4 ≤ message.length →
        decodeAddress message i atyp =
          .ok (⟨ipv4String (message.getD i 0) (message.getD (i + 1) 0)
            (message.getD (i + 2) 0) (message.getD (i + 3) 0)⟩, i + 4))) ∧
    (atyp = 2 →
      (message.length < i + 1 →
        decodeAddress message i atyp = .error .msgTooShortDomainLen) ∧
      (i + 1 ≤ message.length →
        (message.length < (i + 1) + message.getD i 0 →
          decodeAddress message i atyp = .error .msgTooShortDomain) ∧
        ((i + 1) + message.getD i 0 ≤ message.length →
          decodeAddress message i atyp =
            .ok (⟨((message.drop (i + 1)).take (message.getD i 0)).map Char.ofNat⟩,
              (i + 1) + message.getD i 0)))) ∧
    (atyp = 3 →
      (message.length < i + 16 →
        decodeAddress message i atyp = .error .msgTooShortIPv6) ∧
      (i + 16 ≤ message.length →
        decodeAddress message i atyp =
          .ok (ipStr ((message.drop i).take 16), i + 16))) ∧
    (atyp ≠ 1 → atyp ≠ 2 → atyp ≠ 3 →
      decodeAddress message i atyp = .error .unknownAddressType) := by
  refine ⟨?_, ?_, ?_, ?_⟩
  · rintro rfl
    constructor
    · intro h
      unfold decodeAddress
      rw [if_pos rfl, if_pos h]
    · intro h
      have hn : ¬ message.length < i + 4 := by omega
      have hv : decodeAddress message i 1 =
          .ok (ipStr ((message.drop i).take 4), i + 4) := by
        unfold decodeAddress
        rw [if_pos rfl, if_neg hn]
      rw [hv, take4_eq message i h, ipStr_four]
  · rintro rfl
    have h21 : (2 : Nat) ≠ 1 := by omega
    constructor
    · intro h
      unfold decodeAddress
      rw [if_neg h21, if_pos rfl, if_pos h]
    · intro h
      have hn : ¬ message.length < i + 1 := by omega
      constructor
      · intro hD
        unfold decodeAddress
        rw [if_neg h21, if_pos rfl, if_neg hn, if_pos hD]
      · intro hD
        have hnD : ¬ message.length < (i + 1) + message.getD i 0 := by omega
        unfold decodeAddress
        rw [if_neg h21, if_pos rfl, if_neg hn, if_neg hnD]
  · rintro rfl
    have h31 : (3 : Nat) ≠ 1 := by omega
    have h32 : (3 : Nat) ≠ 2 := by omega
    constructor
    · intro h
      unfold decodeAddress
      rw [if_neg h31, if_neg h32, if_pos rfl, if_pos h]
    · intro h
      have hn : ¬ message.length < i + 16 := by omega
      unfold decodeAddress
      rw [if_neg h31, if_neg h32, if_pos rfl, if_neg hn]
  · intro h1 h2 h3
    unfold decodeAddress
    rw [if_neg h1, if_neg h2, if_neg h3]

theorem decodeAddress_cases_witness :
    decodeAddress [192, 168, 1, 1] 0 1 = .ok ("192.168.1.1", 4) ∧
    decodeAddress [3, 97, 98, 99] 0 2 = .ok ("abc", 4) ∧
    decodeAddress [192, 168, 1, 1] 0 4 = .error .unknownAddressType := by
  refine ⟨?_, ?_, ?_⟩
  · have h := ((decodeAddress_cases [192, 168, 1, 1] 0 1).1 rfl).2 (by decide)
    rw [h]
    decide
  · have h := ((((decodeAddress_cases [3, 97, 98, 99] 0 2).2.1 rfl).2
      (by decide)).2 (by decide))
    rw [h]
    decide
  · exact (decodeAddress_cases [192, 168, 1, 1] 0 4).2.2.2 (by decide)
      (by decide) (by decide)

theorem parseHeader_auth_ok (uuid : List Char) (message : List Nat)
    (h18 : ¬ message.length < 18)
    (hauth : validateUUID uuid ((message.drop 1).take 16) = some true) :
    parseHeader uuid message =
      (if message.length < (message.getD 17 0 + 19) + 3 then
        some (.error .msgTooShort)
      else
        match decodeAddress message ((message.getD 17 0 + 19) + 3)
            (message.getD ((message.getD 17 0 + 19) + 2) 0) with
        | .error e => some (.error e)
        | .ok (host, j) =>
          some (.ok ⟨message.getD 0 0, host,
            bigEndianUint16 (message.getD (message.getD 17 0 + 19) 0)
              (message.getD ((message.getD 17 0 + 19) + 1) 0),
            message.getD ((message.getD 17 0 + 19) + 2) 0, j⟩)) := by
  unfold parseHeader
  rw [if_neg h18, hauth]

/-- C5: for an at-least-18-byte frame whose identifier authenticates, with N
the addon-length byte at offset 17: parsing fails with FrameTooShort
("message too short") exactly when the frame length is below 22 + N
(cursor 19 + N plus 3); when the length is at least 22 + N, a successful
parse reads the target port as the big-endian 16-bit value at offsets 19+N
and 20+N and the address-type tag at offset 21+N; and the command byte and
the N addon bytes (offsets 18 through 18+N) are consumed without
interpretation: any frame of the same length agreeing outside those offsets
parses identically. -/
theorem parse_cursor_arithmetic (uuid : List Char) (message : List Nat)
    (h18 : 18 ≤ message.length)
    (hauth : validateUUID uuid ((message.drop 1).take 16) = some true) :
    (parseHeader uuid message = some (.error .msgTooShort) ↔
      message.length < 22 + message.getD 17 0) ∧
    (22 + message.getD 17 0 ≤ message.length →
      ∀ p : Parsed, parseHeader uuid message = some (.ok p) →
        p.port = bigEndianUint16 (message.getD (19 + message.getD 17 0) 0)
          (message.getD (20 + message.getD 17 0) 0) ∧
        p.atyp = message.getD (21 + message.getD 17 0) 0) ∧
    (∀ m' : List Nat, m'.length = message.length →
      (∀ j : Nat, j < 18 ∨ 19 + message.getD 17 0 ≤ j →
        m'.getD j 0 = message.getD j 0) →
      parseHeader uuid m' = parseHeader uuid message) := by
  have hn18 : ¬ message.length < 18 := by omega
  refine ⟨?_, ?_, ?_⟩
  · rw [parseHeader_auth_ok uuid message hn18 hauth]
    by_cases hlen : message.length < (message.getD 17 0 + 19) + 3
    · rw [if_pos hlen]
      exact ⟨fun _ => by omega, fun _ => rfl⟩
    · rw [if_neg hlen]
      have hr : ¬ message.length < 22 + message.getD 17 0 := by omega
      cases hd : decodeAddress message ((message.getD 17 0 + 19) + 3)
          (message.getD ((message.getD 17 0 + 19) + 2) 0) with
      | error e =>
        dsimp only
        refine iff_of_false (fun hcontra => ?_) hr
        have he : e = Err.msgTooShort := Except.error.inj (Option.some.inj hcontra)
        have hne := decodeAddress_ne_msgTooShort message
          ((message.getD 17 0 + 19) + 3)
          (message.getD ((message.getD 17 0 + 19) + 2) 0)
        rw [hd, he] at hne
        exact hne rfl
      | ok pr =>
        obtain ⟨host, j⟩ := pr
        dsimp only
        exact iff_of_false (by simp) hr
  · intro _ p hp
    rw [parseHeader_auth_ok uuid message hn18 hauth] at hp
    by_cases hlen : message.length < (message.getD 17 0 + 19) + 3
    · rw [if_pos hlen] at hp
      exact absurd (Option.some.inj hp) (by simp)
    · rw [if_neg hlen] at hp
      cases hd : decodeAddress message ((message.getD 17 0 + 19) + 3)
          (message.getD ((message.getD 17 0 + 19) + 2) 0) with
      | error e =>
        rw [hd] at hp
        dsimp only at hp
        exact absurd (Option.some.inj hp) (by simp)
      | ok pr =>
        obtain ⟨host, j⟩ := pr
        rw [hd] at hp
        dsimp only at hp
        obtain rfl := (Except.ok.inj (Option.some.inj hp)).symm
        have e3 : message.getD 17 0 + 19 + 2 = 21 + message.getD 17 0 := by omega
        have e2 : message.getD 17 0 + 19 + 1 = 20 + message.getD 17 0 := by omega
        have e1 : message.getD 17 0 + 19 = 19 + message.getD 17 0 := by omega
        dsimp only
        rw [e3, e2, e1]
        exact ⟨rfl, rfl⟩
  · intro m' hl hag
    have h0 : m'.getD 0 0 = message.getD 0 0 := hag 0 (Or.inl (by omega))
    have h17 : m'.getD 17 0 = message.getD 17 0 := hag 17 (Or.inl (by omega))
    have hid : (m'.drop 1).take 16 = (message.drop 1).take 16 :=
      slice_agree m' message 1 16 hl (fun j h1 h2 => hag j (Or.inl (by omega)))
    have hauth' : validateUUID uuid ((m'.drop 1).take 16) = some true := by
      rw [hid]
      exact hauth
    have hn18' : ¬ m'.length < 18 := by omega
    rw [parseHeader_auth_ok uuid m' hn18' hauth',
      parseHeader_auth_ok uuid message hn18 hauth, hl, h17]
    have hI2 : m'.getD ((message.getD 17 0 + 19) + 2) 0 =
        message.getD ((message.getD 17 0 + 19) + 2) 0 :=
      hag _ (Or.inr (by omega))
    have hI1 : m'.getD ((message.getD 17 0 + 19) + 1) 0 =
        message.getD ((message.getD 17 0 + 19) + 1) 0 :=
      hag _ (Or.inr (by omega))
    have hI0 : m'.getD (message.getD 17 0 + 19) 0 =
        message.getD (message.getD 17 0 + 19) 0 :=
      hag _ (Or.inr (by omega))
    rw [hI2, hI1, hI0, h0]
    have hda : decodeAddress m' ((message.getD 17 0 + 19) + 3)
        (message.getD ((message.getD 17 0 + 19) + 2) 0) =
        decodeAddress message ((message.getD 17 0 + 19) + 3)
        (message.getD ((message.getD 17 0 + 19) + 2) 0) :=
      decodeAddress_agree m' message ((message.getD 17 0 + 19) + 3) _ hl
        (fun j hj => hag j (Or.inr (by omega)))
    rw [hda]

theorem parse_cursor_arithmetic_witness :
    parseHeader uuid0 demoMsgShort = some (.error .msgTooShort) :=
  (parse_cursor_arithmetic uuid0 demoMsgShort (by decide) (by decide)).1.mpr
    (by decide)

/-- C1 counterexample: a fully valid handshake frame with a failing dial —
the session is aborted with DialFailed, but the 2-byte acknowledgment
[version, 0] has already been written to the WebSocket before the dial
attempt, contradicting "no acknowledgment sent to the client" and "written
only after the dial succeeds". -/
theorem ack_sent_despite_dial_failure :
    handleProxyRequest uuid0 demoMsg ⟨true, false, true⟩ =
      ([Event.wsWrite 2 [0, 0], Event.dial "1.2.3.4" 443],
        .failed .dialFailed) := by
  decide

/-- C1 (amended): after a successful header parse, the 2-byte acknowledgment
(echoed version byte followed by 0) is the first I/O action, written to the
WebSocket BEFORE the dial attempt — not after it; it does precede any
forwarding of the buffered initial payload, and when the dial fails the
session is aborted with nothing forwarded to the TCP side and no relay
started, but with the acknowledgment already sent. -/
theorem ack_before_dial (uuid : List Char) (message : List Nat) (w : World)
    (p : Parsed) (h : parseHeader uuid message = some (.ok p)) :
    (handleProxyRequest uuid message w).1.take 1 =
      [Event.wsWrite 2 [p.version, 0]] ∧
    (w.ackOK = true →
      (handleProxyRequest uuid message w).1.take 2 =
        [Event.wsWrite 2 [p.version, 0], Event.dial p.host p.port]) ∧
    (w.ackOK = true → w.dialOK = false →
      handleProxyRequest uuid message w =
        ([Event.wsWrite 2 [p.version, 0], Event.dial p.host p.port],
          .failed .dialFailed)) := by
  obtain ⟨ack, dial, tcp⟩ := w
  cases ack <;> cases dial <;> cases tcp <;>
    simp only [handleProxyRequest, h] <;> split_ifs <;> simp_all

theorem ack_before_dial_witness :
    (handleProxyRequest uuid0 demoMsg ⟨true, true, true⟩).1.take 1 =
      [Event.wsWrite 2 [0, 0]] :=
  (ack_before_dial uuid0 demoMsg ⟨true, true, true⟩ ⟨0, "1.2.3.4", 443, 1, 26⟩
    (by decide)).1

/-- C3 counterexample: during relaying, `proxyWebSocketToTCP` ignores the
frame type: a TEXT message (type 1, not binary) read from the WebSocket is
forwarded verbatim to the TCP side, contradicting "never forwarded to the
TCP side ... whether it arrives before the handshake or during relaying". -/
theorem nonbinary_forwarded_in_relay :
    proxyWebSocketToTCP [(1, [104, 105])] = [[104, 105]] :=
  rfl

/-- C3 (amended): a non-binary WebSocket message is logged and skipped only
in the pre-handshake loop of `handleWebSocket` — there it is never handed to
the header parser and does not end the session; during relaying, however,
`proxyWebSocketToTCP` forwards every received message's payload to the TCP
side regardless of its frame type. -/
theorem nonbinary_skipped_or_forwarded (t : Nat) (h : t ≠ 2) :
    (∀ (message : List Nat) (rest : List (Option (Nat × List Nat))),
      handleWebSocketLoop (some (t, message) :: rest) =
        handleWebSocketLoop rest) ∧
    (∀ (message : List Nat) (rest : List (Nat × List Nat)),
      proxyWebSocketToTCP ((t, message) :: rest) =
        message :: proxyWebSocketToTCP rest) := by
  constructor
  · intro message rest
    show (if t ≠ 2 then handleWebSocketLoop rest else [message]) =
      handleWebSocketLoop rest
    rw [if_pos h]
  · intro message rest
    rfl

theorem nonbinary_skipped_or_forwarded_witness :
    handleWebSocketLoop [some (1, [7])] = handleWebSocketLoop [] ∧
    proxyWebSocketToTCP [(1, [7])] = [7] :: proxyWebSocketToTCP [] :=
  ⟨(nonbinary_skipped_or_forwarded 1 (by decide)).1 [7] [],
   (nonbinary_skipped_or_forwarded 1 (by decide)).2 [7] []⟩

/-- C7: every frame shorter than 18 bytes fails with FrameTooShort
("message too short"), with no acknowledgment, dial or forwarding (the
event trace is empty), and before the identifier is examined: the result is
identical for every configured identifier string — including ones on which
`validateUUID` would panic — and for every behaviour of the external calls. -/
theorem short_frame_rejected (message : List Nat) (h : message.length < 18) :
    ∀ (uuid : List Char) (w : World),
      handleProxyRequest uuid message w = ([], .failed .msgTooShort) := by
  intro uuid w
  have hp : parseHeader uuid message = some (.error .msgTooShort) := by
    unfold parseHeader
    rw [if_pos h]
  unfold handleProxyRequest
  rw [hp]

theorem short_frame_rejected_witness :
    handleProxyRequest [] [0, 1, 2] ⟨true, true, true⟩ =
      ([], .failed .msgTooShort) :=
  short_frame_rejected [0, 1, 2] (by decide) [] ⟨true, true, true⟩

/-- C8: for a successfully parsed frame, with all external calls succeeding,
the bytes from the final cursor to the end of the frame are written to the
TCP side as the first forwarded payload, after the dial and before the relay
tasks start; when that slice is empty (cursor at end of frame) nothing is
written to the TCP side before relaying. -/
theorem initial_payload_forwarded (uuid : List Char) (message : List Nat)
    (p : Parsed) (h : parseHeader uuid message = some (.ok p)) :
    handleProxyRequest uuid message ⟨true, true, true⟩ =
      (if p.payloadIdx < message.length then
        [Event.wsWrite 2 [p.version, 0], Event.dial p.host p.port,
          Event.tcpWrite (message.drop p.payloadIdx), Event.startRelay]
      else
        [Event.wsWrite 2 [p.version, 0], Event.dial p.host p.port,
          Event.startRelay], .relayed) := by
  simp only [handleProxyRequest, h]
  split_ifs <;> simp_all

theorem initial_payload_forwarded_witness :
    handleProxyRequest uuid0 demoMsgPay ⟨true, true, true⟩ =
      ([Event.wsWrite 2 [0, 0], Event.dial "1.2.3.4" 443,
        Event.tcpWrite [9, 8], Event.startRelay], .relayed) := by
  have h := initial_payload_forwarded uuid0 demoMsgPay ⟨0, "1.2.3.4", 443, 1, 26⟩
    (by decide)
  rw [h]
  decide

/-- C9: encoding any port value in [0, 65535] as two big-endian bytes and
decoding them with the parser's big-endian 16-bit read
(`binary.BigEndian.Uint16`) returns the original value. -/
theorem port_roundtrip (p : Nat) (h : p < 65536) :
    bigEndianUint16 ((portToBytesBE p).getD 0 0)
      ((portToBytesBE p).getD 1 0) = p := by
  unfold portToBytesBE bigEndianUint16
  simp only [List.getD_cons_zero, List.getD_cons_succ]
  omega

theorem port_roundtrip_witness :
    bigEndianUint16 ((portToBytesBE 443).getD 0 0)
      ((portToBytesBE 443).getD 1 0) = 443 :=
  port_roundtrip 443 (by omega)

end Proxy

